import Mathlib

/-!
Shallow embedding of the memglass producer-side allocator
(`src/src/allocator.cpp`, `src/include/memglass/allocator.hpp`).

Modelling conventions:

* The producer's shared state (header, data regions, overflow regions,
  the `ObjectManager` pointer map and the two managers' private counters)
  is collected in one record `PState`; each public operation of
  `RegionManager`, `MetadataManager` and `ObjectManager` is a function on
  that record, translated statement-by-statement from `allocator.cpp`.
* Machine integers (`uint32_t`, `uint64_t`, `size_t`) are modelled as
  `Nat`; all the values reached in the claims stay far below `2 ^ 64`, so
  wrap-around never fires.  The one bit-level computation, the alignment
  trick `(x + a - 1) & ~(a - 1)` in `RegionManager::allocate`, is kept as
  a 64-bit bitwise operation (`alignUp`).
* A pointer into the session is modelled as the pair
  (id of the region whose mapping contains it, byte offset from that
  region's base); this is exactly the information
  `RegionManager::get_location` recovers from a raw address, and the OS
  guarantees distinct mappings are disjoint.
* Shared-memory creation (`detail::SharedMemory::create`, whose source is
  not in `src/`) is modelled from the spec as succeeding; the failure
  branches (`return nullptr` after a failed `create`) are therefore never
  taken in the model.
* `struct` sizes (`types.hpp` is not in `src/`) are modelled from the
  spec's binary layout (§6, little-endian, natural alignment).
* Each operation is an atomic step of the model.  The intra-operation
  ordering of the individual stores of `register_object` — the subject of
  the publication-ordering claim — is modelled separately as an explicit
  write-event trace (`registerObjectWriteTrace`), read off the source
  statement by statement.
-/

namespace Memglass

/-- Modelled from the spec (§6 layout; `types.hpp` is not in `src/`):
`RegionDescriptor` is `magic(u64) region_id(u64) size(u64) used(u64)
next_region_id(u64) shm_name[256]` = 40 + 256 bytes. -/
def sizeofRegionDescriptor : Nat := 296

/-- Modelled from the spec (§6 layout): `MetadataOverflowDescriptor` is
`magic(u64) region_id(u64) next_region_id(u64) shm_name[256]` plus three
`(offset u32, capacity u32, count u32)` triples, padded to 8-byte
alignment: 8+8+8+256+36 = 316, padded to 320. -/
def sizeofMetadataOverflowDescriptor : Nat := 320

/-- Modelled from the spec (§6 layout): `state(u32) type_id(u32)
region_id(u64) offset(u64) generation(u32) label[64]` = 92, padded to 96. -/
def sizeofObjectEntry : Nat := 96

/-- Modelled from the spec (§6 layout): four `u32` fields plus
`name[64]` = 80. -/
def sizeofTypeEntry : Nat := 80

/-- Modelled from the spec (§6 layout): `name[64]` plus three `u32` plus
`atomicity(u8)` = 77, padded to 80. -/
def sizeofFieldEntry : Nat := 80

/-- `ObjectState::Alive = 1` (spec §3: `Alive=1 | Destroyed=2`). -/
def stateAlive : Nat := 1

/-- `ObjectState::Destroyed = 2`. -/
def stateDestroyed : Nat := 2

/-- The configuration the `Context` holds (`initial_region_size`,
`max_region_size`, `overflow_region_size`, header pool capacities;
spec §4.7). -/
structure Config where
  initial_region_size : Nat
  max_region_size : Nat
  overflow_region_size : Nat
  object_dir_capacity : Nat
  type_registry_capacity : Nat
  field_entries_capacity : Nat
deriving Repr, DecidableEq

/-- `ObjectEntry` of the object directory.  The atomic `state` field is a
`u32` (`0` = never initialised, `1` = Alive, `2` = Destroyed). -/
structure ObjectEntry where
  state : Nat
  type_id : Nat
  region_id : Nat
  offset : Nat
  generation : Nat
  label : String
deriving Repr, DecidableEq

/-- A freshly allocated, not yet initialised directory slot. -/
def uninitObjectEntry : ObjectEntry :=
  { state := 0, type_id := 0, region_id := 0, offset := 0, generation := 0, label := "" }

/-- `RegionDescriptor` of a data region (the `magic` constant carries no
information and is dropped). -/
structure RegionDescriptor where
  region_id : Nat
  size : Nat
  used : Nat
  next_region_id : Nat
  shm_name : String
deriving Repr, DecidableEq

/-- An overflow region: its `MetadataOverflowDescriptor` fields plus the
object sub-pool's contents (type and field sub-pools only need their
counts for the claims at hand). -/
structure OverflowRegion where
  id : Nat
  next_region_id : Nat
  object_entry_capacity : Nat
  type_entry_capacity : Nat
  field_entry_capacity : Nat
  objectCount : Nat
  typeCount : Nat
  fieldCount : Nat
  objects : List ObjectEntry
  shm_name : String
deriving Repr, DecidableEq

/-- A raw pointer into the session, as the region containing it plus the
byte offset from that region's base (what `get_location` computes). -/
structure Ptr where
  region_id : Nat
  offset : Nat
deriving Repr, DecidableEq

/-- Where an `ObjectEntry*` returned by `allocate_object_entry` lives:
slot `i` of the header directory, or slot `i` of the object sub-pool of
the `r`-th overflow region (0-based position in creation order). -/
inductive EntryRef where
  | header (i : Nat)
  | overflow (r : Nat) (i : Nat)
deriving Repr, DecidableEq

/-- The whole producer-side state: `TelemetryHeader` fields, the
`RegionManager`'s region list and private counters, the
`MetadataManager`'s overflow list and private counter, and the
`ObjectManager`'s pointer map. -/
structure PState where
  sequence : Nat
  first_region_id : Nat
  first_overflow_region_id : Nat
  objectCount : Nat
  typeCount : Nat
  fieldCount : Nat
  headerObjects : List ObjectEntry
  sessionName : String
  regions : List RegionDescriptor
  nextRegionId : Nat
  currentRegionSize : Nat
  overflow : List OverflowRegion
  nextOverflowId : Nat
  ptrToEntry : List (Ptr × EntryRef)
deriving Repr, DecidableEq

/-- State right after `Context` construction: header zeroed, no regions,
both id counters at 1 (`next_region_id_ = 1`, `next_overflow_id_ = 1`),
`current_region_size_ = ctx.config().initial_region_size`. -/
def initState (cfg : Config) : PState :=
  { sequence := 0, first_region_id := 0, first_overflow_region_id := 0,
    objectCount := 0, typeCount := 0, fieldCount := 0,
    headerObjects := [], sessionName := "",
    regions := [], nextRegionId := 1,
    currentRegionSize := cfg.initial_region_size,
    overflow := [], nextOverflowId := 1, ptrToEntry := [] }

/-- `(current + alignment - 1) & ~(alignment - 1)` on `uint64_t`
(`RegionManager::allocate`); `~x` over 64 bits is `x XOR (2^64 - 1)`. -/
def alignUp (current alignment : Nat) : Nat :=
  Nat.land (current + alignment - 1) (Nat.xor (2 ^ 64 - 1) (alignment - 1))

/-- Modelled from the spec (§6; `detail::make_region_shm_name` is not in
`src/`): data region `i` of session `S` is named `mg.<S>.r.<i>`. -/
def mkRegionShmName (session : String) (id : Nat) : String :=
  "mg." ++ session ++ ".r." ++ Nat.repr id

/-- Modelled from the spec (§6; `detail::make_overflow_shm_name` is not in
`src/`): overflow region `i` of session `S` is named `mg.<S>.o.<i>`. -/
def mkOverflowShmName (session : String) (id : Nat) : String :=
  "mg." ++ session ++ ".o." ++ Nat.repr id

/-- Apply `f` to the last element of a list (how the source mutates
`regions_.back()` / `overflow_regions_.back()`). -/
def updateLast {α : Type} (f : α → α) : List α → List α
  | [] => []
  | [x] => [f x]
  | x :: y :: rest => x :: updateLast f (y :: rest)

/-- Apply `f` to the element at position `i` (in-place array update). -/
def updateAt {α : Type} (f : α → α) : Nat → List α → List α
  | _, [] => []
  | 0, x :: rest => f x :: rest
  | Nat.succ k, x :: rest => x :: updateAt f k rest

/-- `RegionManager::create_region`: assign the next id, build the
descriptor (`size` is descriptor + body, `used` starts at the descriptor
size, `next_region_id` 0), link the previous region's `next_region_id`,
append.  Returns the new region's id with the new state. -/
def create_region (s : PState) (size : Nat) : Nat × PState :=
  let id := s.nextRegionId
  let shm_name := mkRegionShmName s.sessionName id
  let total_size := sizeofRegionDescriptor + size
  let desc : RegionDescriptor :=
    { region_id := id, size := total_size, used := sizeofRegionDescriptor,
      next_region_id := 0, shm_name := shm_name }
  (id, { s with
          regions := updateLast (fun r => { r with next_region_id := id }) s.regions ++ [desc],
          nextRegionId := id + 1 })

/-- `RegionManager::init`: record the session name, reset
`current_region_size_`, create the first region and publish its id into
`header.first_region_id`.  (No `sequence` update appears in the source.) -/
def rmInit (s : PState) (session : String) (initial_size : Nat) : PState :=
  let s1 := { s with sessionName := session, currentRegionSize := initial_size }
  let res := create_region s1 initial_size
  { res.2 with first_region_id := res.1 }

/-- `RegionManager::allocate(size, alignment)`: bump-allocate in the last
region; on overflow of the current region grow by
`min (max (size + sizeof(RegionDescriptor)) (current_region_size_ * 2))
max_region_size`, bump `header.sequence`, and satisfy from the new
region.  Returns the pointer as a `Ptr` (region id, offset of the aligned
cursor from the region base). -/
def allocate (cfg : Config) (s : PState) (size alignment : Nat) : Option Ptr × PState :=
  match s.regions.getLast? with
  | none => (none, s)
  | some region =>
    if alignUp region.used alignment + size > region.size then
      let new_size := min (max (size + sizeofRegionDescriptor) (s.currentRegionSize * 2))
                          cfg.max_region_size
      let s1 := { s with currentRegionSize := new_size }
      let res := create_region s1 new_size
      let s2 := { res.2 with sequence := res.2.sequence + 1 }
      let grown := updateLast (fun r => { r with used := alignUp sizeofRegionDescriptor alignment + size }) s2.regions
      (some { region_id := res.1, offset := alignUp sizeofRegionDescriptor alignment },
       { s2 with regions := grown })
    else
      let bumped := updateLast (fun r => { r with used := alignUp region.used alignment + size }) s.regions
      (some { region_id := region.region_id, offset := alignUp region.used alignment },
       { s with regions := bumped })

/-- `RegionManager::get_location(ptr)`: scan the regions for the mapping
containing `ptr`; report its region id and the offset from its base. -/
def get_location (s : PState) (p : Ptr) : Option (Nat × Nat) :=
  match s.regions.find? (fun r => r.region_id == p.region_id && decide (p.offset < r.size)) with
  | some r => some (r.region_id, p.offset)
  | none => none

/-- `MetadataManager::create_overflow_region`: assign the next overflow
id, carve the body `overflow_region_size - sizeof(descriptor)` into
sub-pools (50% objects / 10% types / 40% fields, in entry units), link
the previous overflow region's `next_region_id` (or, for the first one,
`header.first_overflow_region_id`), append, and bump `header.sequence`. -/
def create_overflow_region (cfg : Config) (s : PState) : Nat × PState :=
  let id := s.nextOverflowId
  let shm_name := mkOverflowShmName s.sessionName id
  let available := cfg.overflow_region_size - sizeofMetadataOverflowDescriptor
  let object_capacity := available * 50 / 100 / sizeofObjectEntry
  let type_capacity := available * 10 / 100 / sizeofTypeEntry
  let field_capacity := available * 40 / 100 / sizeofFieldEntry
  let region : OverflowRegion :=
    { id := id, next_region_id := 0,
      object_entry_capacity := object_capacity,
      type_entry_capacity := type_capacity,
      field_entry_capacity := field_capacity,
      objectCount := 0, typeCount := 0, fieldCount := 0,
      objects := [], shm_name := shm_name }
  let s1 :=
    if s.overflow.isEmpty then
      { s with first_overflow_region_id := id }
    else
      { s with overflow := updateLast (fun ov => { ov with next_region_id := id }) s.overflow }
  (id, { s1 with
          overflow := s1.overflow ++ [region],
          nextOverflowId := id + 1,
          sequence := s1.sequence + 1 })

/-- `MetadataManager::allocate_object_entry`: header directory first,
then the current (last) overflow region's object sub-pool, else create a
new overflow region and take its slot 0.  The returned `EntryRef` is the
slot the source returns a pointer to; the slot itself is uninitialised. -/
def allocate_object_entry (cfg : Config) (s : PState) : EntryRef × PState :=
  if s.objectCount < cfg.object_dir_capacity then
    (EntryRef.header s.objectCount,
     { s with objectCount := s.objectCount + 1,
              headerObjects := s.headerObjects ++ [uninitObjectEntry] })
  else
    match s.overflow.getLast? with
    | some region =>
      if region.objectCount < region.object_entry_capacity then
        let bump := fun (ov : OverflowRegion) =>
          { ov with objectCount := ov.objectCount + 1, objects := ov.objects ++ [uninitObjectEntry] }
        (EntryRef.overflow (s.overflow.length - 1) region.objectCount,
         { s with overflow := updateLast bump s.overflow })
      else
        let res := create_overflow_region cfg s
        let first := fun (ov : OverflowRegion) =>
          { ov with objectCount := 1, objects := [uninitObjectEntry] }
        (EntryRef.overflow (res.2.overflow.length - 1) 0,
         { res.2 with overflow := updateLast first res.2.overflow })
    | none =>
      let res := create_overflow_region cfg s
      let first := fun (ov : OverflowRegion) =>
        { ov with objectCount := 1, objects := [uninitObjectEntry] }
      (EntryRef.overflow (res.2.overflow.length - 1) 0,
       { res.2 with overflow := updateLast first res.2.overflow })

/-- `MetadataManager::allocate_type_entry`: same walk for the type
registry (the entry's contents are not needed by any claim, so only the
counts are tracked). -/
def allocate_type_entry (cfg : Config) (s : PState) : EntryRef × PState :=
  if s.typeCount < cfg.type_registry_capacity then
    (EntryRef.header s.typeCount, { s with typeCount := s.typeCount + 1 })
  else
    match s.overflow.getLast? with
    | some region =>
      if region.typeCount < region.type_entry_capacity then
        let bump := fun (ov : OverflowRegion) => { ov with typeCount := ov.typeCount + 1 }
        (EntryRef.overflow (s.overflow.length - 1) region.typeCount,
         { s with overflow := updateLast bump s.overflow })
      else
        let res := create_overflow_region cfg s
        let first := fun (ov : OverflowRegion) => { ov with typeCount := 1 }
        (EntryRef.overflow (res.2.overflow.length - 1) 0,
         { res.2 with overflow := updateLast first res.2.overflow })
    | none =>
      let res := create_overflow_region cfg s
      let first := fun (ov : OverflowRegion) => { ov with typeCount := 1 }
      (EntryRef.overflow (res.2.overflow.length - 1) 0,
       { res.2 with overflow := updateLast first res.2.overflow })

/-- Field sub-pool capacity of a freshly created overflow region (the
source reads it back from `region->descriptor->field_entry_capacity`,
which `create_overflow_region` computed as 40% of the body). -/
def freshOverflowFieldCapacity (cfg : Config) : Nat :=
  (cfg.overflow_region_size - sizeofMetadataOverflowDescriptor) * 40 / 100 / sizeofFieldEntry

/-- `MetadataManager::allocate_field_entries(count)`: a contiguous run of
`count` slots, header field pool first (only when the whole run fits),
then the current overflow's field sub-pool, else a fresh overflow region
— which is still created (and linked, and `sequence` bumped) even when
the run does not fit in it, in which case the call returns null. -/
def allocate_field_entries (cfg : Config) (s : PState) (count : Nat) : Option EntryRef × PState :=
  if count = 0 then (none, s)
  else if s.fieldCount + count ≤ cfg.field_entries_capacity then
    (some (EntryRef.header s.fieldCount), { s with fieldCount := s.fieldCount + count })
  else
    match s.overflow.getLast? with
    | some region =>
      if region.fieldCount + count ≤ region.field_entry_capacity then
        let bump := fun (ov : OverflowRegion) => { ov with fieldCount := ov.fieldCount + count }
        (some (EntryRef.overflow (s.overflow.length - 1) region.fieldCount),
         { s with overflow := updateLast bump s.overflow })
      else
        let res := create_overflow_region cfg s
        let fresh := res.2
        let first := fun (ov : OverflowRegion) => { ov with fieldCount := count }
        if count > freshOverflowFieldCapacity cfg then (none, fresh)
        else
          (some (EntryRef.overflow (fresh.overflow.length - 1) 0),
           { fresh with overflow := updateLast first fresh.overflow })
    | none =>
      let res := create_overflow_region cfg s
      let fresh := res.2
      let first := fun (ov : OverflowRegion) => { ov with fieldCount := count }
      if count > freshOverflowFieldCapacity cfg then (none, fresh)
      else
        (some (EntryRef.overflow (fresh.overflow.length - 1) 0),
         { fresh with overflow := updateLast first fresh.overflow })

/-- Write entry `e` into the directory slot `ref` (the source writes
through the returned `ObjectEntry*`). -/
def setEntry (s : PState) (ref : EntryRef) (e : ObjectEntry) : PState :=
  match ref with
  | EntryRef.header i => { s with headerObjects := updateAt (fun _ => e) i s.headerObjects }
  | EntryRef.overflow r i =>
    { s with overflow :=
        updateAt (fun ov => { ov with objects := updateAt (fun _ => e) i ov.objects }) r s.overflow }

/-- Apply `f` to the entry in slot `ref`. -/
def mapEntry (s : PState) (ref : EntryRef) (f : ObjectEntry → ObjectEntry) : PState :=
  match ref with
  | EntryRef.header i => { s with headerObjects := updateAt f i s.headerObjects }
  | EntryRef.overflow r i =>
    { s with overflow :=
        updateAt (fun ov => { ov with objects := updateAt f i ov.objects }) r s.overflow }

/-- Read the entry in slot `ref`. -/
def getEntry (s : PState) : EntryRef → Option ObjectEntry
  | EntryRef.header i => s.headerObjects.get? i
  | EntryRef.overflow r i =>
    match s.overflow.get? r with
    | some ov => ov.objects.get? i
    | none => none

/-- `ptr_to_entry_[ptr] = entry` (insert or overwrite). -/
def insertPtr (p : Ptr) (ref : EntryRef) : List (Ptr × EntryRef) → List (Ptr × EntryRef)
  | [] => [(p, ref)]
  | (q, r) :: rest => if q = p then (p, ref) :: rest else (q, r) :: insertPtr p ref rest

/-- `ptr_to_entry_.find(ptr)`. -/
def lookupPtr (p : Ptr) : List (Ptr × EntryRef) → Option EntryRef
  | [] => none
  | (q, r) :: rest => if q = p then some r else lookupPtr p rest

/-- `ptr_to_entry_.erase(it)`. -/
def erasePtr (p : Ptr) : List (Ptr × EntryRef) → List (Ptr × EntryRef)
  | [] => []
  | (q, r) :: rest => if q = p then rest else (q, r) :: erasePtr p rest

/-- `ObjectManager::register_object(ptr, type_id, label)`: resolve the
location, allocate a directory slot, fill the entry
(`state = Alive`, `generation = 1`), bump `header.sequence`, record
`ptr → entry`. -/
def register_object (cfg : Config) (s : PState) (p : Ptr) (type_id : Nat) (label : String) :
    Option EntryRef × PState :=
  match get_location s p with
  | none => (none, s)
  | some loc =>
    let res := allocate_object_entry cfg s
    let entry : ObjectEntry :=
      { state := stateAlive, type_id := type_id, region_id := loc.1,
        offset := loc.2, generation := 1, label := label }
    let s1 := setEntry res.2 res.1 entry
    let s2 := { s1 with sequence := s1.sequence + 1 }
    (some res.1, { s2 with ptrToEntry := insertPtr p res.1 s2.ptrToEntry })

/-- `ObjectManager::destroy_object(ptr)`: when the pointer is in the map,
store `state = Destroyed`, bump `header.sequence`, erase the map entry;
otherwise do nothing.  (`generation` is not touched.) -/
def destroy_object (s : PState) (p : Ptr) : PState :=
  match lookupPtr p s.ptrToEntry with
  | none => s
  | some ref =>
    let s1 := mapEntry s ref (fun e => { e with state := stateDestroyed })
    { s1 with sequence := s1.sequence + 1, ptrToEntry := erasePtr p s1.ptrToEntry }

/-- The scan loop of `ObjectManager::find_object`: first entry (in index
order) that is `Alive` with exactly the requested label. -/
def findScan (label : String) : List ObjectEntry → Option ObjectEntry
  | [] => none
  | e :: rest =>
    if e.state = stateAlive ∧ e.label = label then some e else findScan label rest

/-- `ObjectManager::find_object(label)`: scans the header object pool
only, indices `0 ..< header.object_count`. -/
def find_object (s : PState) (label : String) : Option ObjectEntry :=
  findScan label (s.headerObjects.take s.objectCount)

/-- `ObjectManager::get_all_objects`: collect the `Alive` entries of the
header object pool, indices `0 ..< header.object_count` (the source scans
no overflow region). -/
def get_all_objects (s : PState) : List ObjectEntry :=
  (s.headerObjects.take s.objectCount).filter (fun e => e.state == stateAlive)

/-- Modelled from the spec: `objects()` returns only `Alive` entries
across header **and** overflow pools (spec §4.6 and §8); used as the
comparison point for the listing claim. -/
def allAliveObjectsSpec (s : PState) : List ObjectEntry :=
  (s.headerObjects.take s.objectCount).filter (fun e => e.state == stateAlive)
    ++ (s.overflow.map (fun ov => (ov.objects.take ov.objectCount).filter
          (fun e => e.state == stateAlive))).flatten

/-- One producer-side operation, for reasoning over whole sessions. -/
inductive Cmd where
  | sessionInit (session : String) (initial_size : Nat)
  | alloc (size alignment : Nat)
  | registerObj (p : Ptr) (type_id : Nat) (label : String)
  | destroyObj (p : Ptr)
  | allocObjEntry
  | allocTypeEntry
  | allocFieldEntries (n : Nat)
deriving Repr, DecidableEq

/-- The state transition of one operation (result values projected away). -/
def step (cfg : Config) (s : PState) : Cmd → PState
  | Cmd.sessionInit name sz => rmInit s name sz
  | Cmd.alloc sz a => (allocate cfg s sz a).2
  | Cmd.registerObj p t l => (register_object cfg s p t l).2
  | Cmd.destroyObj p => destroy_object s p
  | Cmd.allocObjEntry => (allocate_object_entry cfg s).2
  | Cmd.allocTypeEntry => (allocate_type_entry cfg s).2
  | Cmd.allocFieldEntries n => (allocate_field_entries cfg s n).2

/-- Run a session: fold the operations over a starting state. -/
def run (cfg : Config) (cmds : List Cmd) (s : PState) : PState :=
  cmds.foldl (fun t c => step cfg t c) s

/-! ### The write trace of a successful `register_object`

Read off `allocator.cpp` statement by statement for the header-pool
path: `allocate_object_entry` release-stores the directory `count`
(line 242), then `register_object` release-stores `entry->state = Alive`
(line 394), then writes the plain body fields `type_id`, `region_id`,
`offset`, `generation`, `label` (lines 395–399), then release-bumps
`header.sequence` (line 402). -/

/-- One store of `register_object`, in program order. -/
inductive WriteEvent where
  | countRelease
  | stateRelease
  | typeIdWrite
  | regionIdWrite
  | offsetWrite
  | generationWrite
  | labelWrite
  | sequenceRelease
deriving Repr, DecidableEq

/-- The stores of a successful `register_object` (header-pool path), in
the order the source performs them. -/
def registerObjectWriteTrace : List WriteEvent :=
  [WriteEvent.countRelease, WriteEvent.stateRelease, WriteEvent.typeIdWrite,
   WriteEvent.regionIdWrite, WriteEvent.offsetWrite, WriteEvent.generationWrite,
   WriteEvent.labelWrite, WriteEvent.sequenceRelease]

/-- Non-atomic body-field writes of the new entry. -/
def isBodyFieldWrite : WriteEvent → Bool
  | WriteEvent.typeIdWrite => true
  | WriteEvent.regionIdWrite => true
  | WriteEvent.offsetWrite => true
  | WriteEvent.generationWrite => true
  | WriteEvent.labelWrite => true
  | _ => false

/-- Release stores that make the entry visible to observers: the pool's
`count` and the entry's `state`. -/
def isVisibilityRelease : WriteEvent → Bool
  | WriteEvent.countRelease => true
  | WriteEvent.stateRelease => true
  | _ => false

/-! ### Well-formedness and id invariants -/

/-- The object pool counts agree with the modelled pool contents (true of
every state reachable from `initState`; in the C++ the pools are raw
arrays and `count` *is* the number of handed-out slots). -/
def WFCounts (s : PState) : Prop :=
  s.objectCount = s.headerObjects.length ∧
  ∀ ov ∈ s.overflow, ov.objectCount = ov.objects.length

instance (s : PState) : Decidable (WFCounts s) := by
  unfold WFCounts; infer_instance

/-- Region-id bookkeeping: within each kind the ids, in list (= creation)
order, are exactly `1, 2, …`, and the managers' `next` counters sit one
past the end. -/
def IdsInv (s : PState) : Prop :=
  s.regions.map (fun r => r.region_id) = List.range' 1 s.regions.length ∧
  s.nextRegionId = s.regions.length + 1 ∧
  s.overflow.map (fun ov => ov.id) = List.range' 1 s.overflow.length ∧
  s.nextOverflowId = s.overflow.length + 1

/-! ### Concrete session used by the counterexamples and witnesses -/

/-- A small test configuration: header object directory of 1 slot, type
registry of 4, field pool of 3, 4 KiB data regions capped at 8 KiB, 4 KiB
overflow regions. -/
def cfgA : Config :=
  { initial_region_size := 4096, max_region_size := 8192,
    overflow_region_size := 4096, object_dir_capacity := 1,
    type_registry_capacity := 4, field_entries_capacity := 3 }

def sessA : String := "s"

def lblA : String := "a"

def lblB : String := "b"

/-- A payload pointer inside data region 1 (offset 300 of its mapping). -/
def ptrA : Ptr := { region_id := 1, offset := 300 }

/-- A second payload pointer inside data region 1. -/
def ptrB : Ptr := { region_id := 1, offset := 400 }

/-- The session right after `RegionManager::init(sessA, 4096)`. -/
def stateInitA : PState := rmInit (initState cfgA) sessA 4096

/-- The session after `init` and two `register_object` calls; the header
directory holds one slot, so the second registration spills into a fresh
overflow region. -/
def stateRegA : PState :=
  run cfgA
    [Cmd.sessionInit sessA 4096,
     Cmd.registerObj ptrA 7 lblA,
     Cmd.registerObj ptrB 7 lblB]
    (initState cfgA)

/-- A header pool with a destroyed entry before an alive one, plus an
overflow pool containing an alive entry with the same label; exercises
the `find_object` scan. -/
def stateFindA : PState :=
  { stateRegA with
      headerObjects :=
        [{ state := stateDestroyed, type_id := 7, region_id := 1, offset := 300,
           generation := 1, label := lblA },
         { state := stateAlive, type_id := 7, region_id := 1, offset := 500,
           generation := 1, label := lblA }],
      objectCount := 2 }

/-- The alive header entry of `stateFindA` with label `lblA`. -/
def entryFindA : ObjectEntry :=
  { state := stateAlive, type_id := 7, region_id := 1, offset := 500,
    generation := 1, label := lblA }

/-- The descriptor of the first data region of `stateInitA` (id 1, 4 KiB
body behind the 296-byte descriptor, bump cursor at the descriptor end). -/
def regInitA : RegionDescriptor :=
  { region_id := 1, size := 4392, used := 296, next_region_id := 0,
    shm_name := mkRegionShmName sessA 1 }


theorem updateLast_concat {α : Type} (f : α → α) (xs : List α) (x : α) :
    updateLast f (xs ++ [x]) = xs ++ [f x] := by
  induction xs with
  | nil => rfl
  | cons a ys ih =>
    cases ys with
    | nil => simp [updateLast]
    | cons b zs => simpa [updateLast] using ih

theorem length_updateLast {α : Type} (f : α → α) (l : List α) :
    (updateLast f l).length = l.length := by
  induction l with
  | nil => rfl
  | cons a ys ih =>
    cases ys with
    | nil => rfl
    | cons b zs => simpa [updateLast] using ih

theorem map_updateLast {α β : Type} (f : α → α) (g : α → β) (h : ∀ x, g (f x) = g x)
    (l : List α) : (updateLast f l).map g = l.map g := by
  induction l with
  | nil => rfl
  | cons a ys ih =>
    cases ys with
    | nil => simp [updateLast, h]
    | cons b zs => simpa [updateLast, h] using ih

theorem length_updateAt {α : Type} (f : α → α) (i : Nat) (l : List α) :
    (updateAt f i l).length = l.length := by
  induction l generalizing i with
  | nil => cases i <;> rfl
  | cons a ys ih =>
    cases i with
    | zero => rfl
    | succ k => simp [updateAt, ih]

theorem get?_updateAt {α : Type} (f : α → α) (i j : Nat) (l : List α) :
    (updateAt f i l).get? j = if i = j then (l.get? j).map f else l.get? j := by
  induction l generalizing i j with
  | nil => simp [updateAt]
  | cons a ys ih =>
    cases i with
    | zero =>
      cases j with
      | zero => simp [updateAt]
      | succ m => simp [updateAt]
    | succ k =>
      cases j with
      | zero => simp [updateAt]
      | succ m => simpa [updateAt, Nat.succ_inj] using ih k m

theorem map_updateAt {α β : Type} (f : α → α) (g : α → β) (h : ∀ x, g (f x) = g x)
    (i : Nat) (l : List α) : (updateAt f i l).map g = l.map g := by
  induction l generalizing i with
  | nil => cases i <;> rfl
  | cons a ys ih =>
    cases i with
    | zero => simp [updateAt, h]
    | succ k => simp [updateAt, ih]


/-- Claim C1 (code_bug): the claim says every non-atomic body field of the
new `ObjectEntry` is written before any release store that makes the
entry visible.  In the source the release stores come first: the pool
`count` (allocator, line 242) and `state = Alive` (line 394) are stored
before `type_id`, `region_id`, `offset`, `generation` and the label are
written (lines 395–399).  This theorem refutes the claimed ordering on
the write trace of `register_object`. -/
theorem register_object_releases_before_body_writes :
    ¬ (∀ i j : Fin registerObjectWriteTrace.length,
        isBodyFieldWrite (registerObjectWriteTrace.get i) = true →
        isVisibilityRelease (registerObjectWriteTrace.get j) = true →
        i < j) := by decide

/-- Claim C2 (code_bug): the claim says `used` never exceeds `size`, even
when growth is clamped to `config.max_region_size`.  With
`initial_region_size = 4096`, `max_region_size = 8192`, a single
`allocate(10000, 8)` grows once to the clamp; the code then stores
`used = 10296` into the new region whose `size` is `8488` without any
re-check, violating the bound (and handing out 10000 bytes in an
8 KiB mapping). -/
theorem allocate_oversize_breaks_used_bound :
    (allocate cfgA stateInitA 10000 8).1 = some { region_id := 2, offset := 296 } ∧
    (allocate cfgA stateInitA 10000 8).2.regions.getLast? =
      some { region_id := 2, size := 8488, used := 10296, next_region_id := 0,
             shm_name := mkRegionShmName sessA 2 } ∧
    8488 < 10296 := by decide

/-- Claim C3 counterexample: the claim says `header.sequence` strictly
increases after every data-region creation *including the first region
created by init*.  `RegionManager::init` creates region 1 but performs
no `sequence` update, so `sequence` is unchanged (not strictly
greater). -/
theorem init_region_leaves_sequence_unchanged :
    stateInitA.regions.length = 1 ∧
    ¬ stateInitA.sequence > (initState cfgA).sequence := by decide

/-- Claim C4 counterexample: the claim says no overflow region is created
while *any* of the three header pools still has free capacity.  With a
field pool of capacity 3, a single `allocate_field_entries(5)` from the
fresh state creates an overflow region while all three header pools
(object 0/1, type 0/4, field 0/3) still have free capacity. -/
theorem overflow_created_while_pools_free :
    (run cfgA [Cmd.allocFieldEntries 5] (initState cfgA)).overflow.length = 1 ∧
    (run cfgA [Cmd.allocFieldEntries 5] (initState cfgA)).objectCount < cfgA.object_dir_capacity ∧
    (run cfgA [Cmd.allocFieldEntries 5] (initState cfgA)).typeCount < cfgA.type_registry_capacity ∧
    (run cfgA [Cmd.allocFieldEntries 5] (initState cfgA)).fieldCount < cfgA.field_entries_capacity := by
  decide

/-- Claim C5 (code_bug): the claim (and the spec) say the listing returns
the alive entries of the header pool *and* of every overflow region.
`ObjectManager::get_all_objects` scans only the header pool: after two
registrations against a 1-slot header directory, the spec-modelled union
has 2 alive entries while the code's listing returns only the header
one, missing the alive overflow entry. -/
theorem get_all_objects_misses_overflow_alive :
    (get_all_objects stateRegA).length = 1 ∧
    (allAliveObjectsSpec stateRegA).length = 2 ∧
    (∃ e ∈ allAliveObjectsSpec stateRegA,
       e.state = stateAlive ∧ e ∉ get_all_objects stateRegA) := by decide

/-- Claim C8 counterexample: the claim says `generation` increments on
every state change, so after `destroy_object` it is strictly greater
than while alive.  In the source `destroy_object` stores only
`state = Destroyed` and never touches `generation`: the registered
entry has generation 1 while alive and still 1 after destruction. -/
theorem destroy_object_keeps_generation_at_one :
    (getEntry stateRegA (EntryRef.header 0)).map (fun e => (e.state, e.generation)) =
      some (stateAlive, 1) ∧
    (getEntry (destroy_object stateRegA ptrA) (EntryRef.header 0)).map
        (fun e => (e.state, e.generation)) = some (stateDestroyed, 1) := by decide

/-- Claim C9 counterexample: the claim says no two regions of the session
— data or overflow — ever share an id.  `RegionManager` and
`MetadataManager` keep independent counters both starting at 1, so the
first data region and the first overflow region both carry id 1. -/
theorem data_region_and_overflow_share_id_one :
    stateRegA.regions.map (fun r => r.region_id) = [1] ∧
    stateRegA.overflow.map (fun ov => ov.id) = [1] ∧
    ¬ (∀ r ∈ stateRegA.regions, ∀ ov ∈ stateRegA.overflow, r.region_id ≠ ov.id) := by decide

/-- Claim C10 (confirmed): `destroy_object(ptr)` with a pointer that is
not in the producer-local map (never registered, or already destroyed
and hence erased) changes nothing at all: the resulting state — every
entry, `header.sequence`, the map — is the input state. -/
theorem destroy_object_unknown_ptr_noop (s : PState) (p : Ptr)
    (h : lookupPtr p s.ptrToEntry = none) : destroy_object s p = s := by
  unfold destroy_object
  rw [h]

/-- Witness for C10 at the freshly initialised session and a pointer that
was never registered. -/
theorem destroy_object_unknown_ptr_noop_witness :
    destroy_object stateInitA ptrA = stateInitA :=
  destroy_object_unknown_ptr_noop stateInitA ptrA (by decide)


theorem findScan_eq_some (label : String) (l : List ObjectEntry) (e : ObjectEntry)
    (h : findScan label l = some e) :
    ∃ pre post, l = pre ++ e :: post ∧ (e.state = stateAlive ∧ e.label = label) ∧
      ∀ x ∈ pre, ¬ (x.state = stateAlive ∧ x.label = label) := by
  induction l with
  | nil => simp [findScan] at h
  | cons a ys ih =>
    by_cases ha : a.state = stateAlive ∧ a.label = label
    · refine ⟨[], ys, ?_, ?_, by simp⟩
      · simp [findScan, ha] at h
        simp [h]
      · simp [findScan, ha] at h
        simpa [← h] using ha
    · simp only [findScan, if_neg ha] at h
      obtain ⟨pre, post, hl, he, hpre⟩ := ih h
      refine ⟨a :: pre, post, by simp [hl], he, ?_⟩
      intro x hx
      rcases List.mem_cons.1 hx with rfl | hx
      · exact ha
      · exact hpre x hx

theorem findScan_eq_none (label : String) (l : List ObjectEntry)
    (h : findScan label l = none) :
    ∀ e ∈ l, ¬ (e.state = stateAlive ∧ e.label = label) := by
  induction l with
  | nil => simp
  | cons a ys ih =>
    by_cases ha : a.state = stateAlive ∧ a.label = label
    · simp [findScan, ha] at h
    · simp only [findScan, if_neg ha] at h
      intro e he
      rcases List.mem_cons.1 he with rfl | he
      · exact ha
      · exact ih h e he

/-- Claim C6 (confirmed): `find_object(label)` scans only the header
object pool in index order up to `count`: when it returns an entry, that
entry is the first alive byte-for-byte label match of the scanned
prefix; when it returns null, no alive match exists in the header pool;
and the result is unchanged by whatever the overflow pools (or any other
state component) contain. -/
theorem find_object_scans_header_in_order (s : PState) (label : String) :
    (∀ e, find_object s label = some e →
       ∃ pre post, s.headerObjects.take s.objectCount = pre ++ e :: post ∧
         (e.state = stateAlive ∧ e.label = label) ∧
         ∀ x ∈ pre, ¬ (x.state = stateAlive ∧ x.label = label)) ∧
    (find_object s label = none →
       ∀ e ∈ s.headerObjects.take s.objectCount,
         ¬ (e.state = stateAlive ∧ e.label = label)) ∧
    (∀ t : PState, t.headerObjects = s.headerObjects → t.objectCount = s.objectCount →
       find_object t label = find_object s label) := by
  refine ⟨?_, ?_, ?_⟩
  · intro e h
    exact findScan_eq_some label _ e h
  · intro h
    exact findScan_eq_none label _ h
  · intro t h1 h2
    unfold find_object
    rw [h1, h2]

/-- Witness for C6 on a pool holding a destroyed label match before the
alive one, with a matching alive entry also sitting in an overflow
pool. -/
theorem find_object_scans_header_in_order_witness :
    ∃ pre post, stateFindA.headerObjects.take stateFindA.objectCount = pre ++ entryFindA :: post ∧
      (entryFindA.state = stateAlive ∧ entryFindA.label = lblA) ∧
      ∀ x ∈ pre, ¬ (x.state = stateAlive ∧ x.label = lblA) :=
  (find_object_scans_header_in_order stateFindA lblA).1 entryFindA (by decide)


theorem allocate_growth_eq (cfg : Config) (s : PState) (size a : Nat)
    (rs : List RegionDescriptor) (r : RegionDescriptor)
    (h : s.regions = rs ++ [r]) (hgrow : alignUp r.used a + size > r.size) :
    allocate cfg s size a =
      (some { region_id := s.nextRegionId, offset := alignUp sizeofRegionDescriptor a },
       { s with
          currentRegionSize :=
            min (max (size + sizeofRegionDescriptor) (s.currentRegionSize * 2)) cfg.max_region_size,
          regions := (rs ++ [{ r with next_region_id := s.nextRegionId }]) ++
            [{ region_id := s.nextRegionId,
               size := sizeofRegionDescriptor +
                 min (max (size + sizeofRegionDescriptor) (s.currentRegionSize * 2)) cfg.max_region_size,
               used := alignUp sizeofRegionDescriptor a + size,
               next_region_id := 0,
               shm_name := mkRegionShmName s.sessionName s.nextRegionId }],
          nextRegionId := s.nextRegionId + 1,
          sequence := s.sequence + 1 }) := by
  have hr : s.regions.getLast? = some r := by rw [h]; exact List.getLast?_concat rs
  unfold allocate
  rw [hr]
  simp only [gt_iff_lt] at hgrow ⊢
  rw [if_pos hgrow]
  simp only [create_region, h, updateLast_concat]

/-- Claim C7 (confirmed): when the aligned cursor plus `size` exceeds the
current region's size, `allocate` creates exactly one new region whose
body size is `min (max (size + sizeof(RegionDescriptor))
(current_region_size * 2)) max_region_size`, links it from the prior
region's `next_region_id`, bumps `header.sequence` by one, and returns a
non-null pointer into the new region. -/
theorem allocate_grows_one_region_and_satisfies (cfg : Config) (s : PState) (size a : Nat)
    (rs : List RegionDescriptor) (r : RegionDescriptor)
    (h : s.regions = rs ++ [r]) (hgrow : alignUp r.used a + size > r.size) :
    (allocate cfg s size a).1 =
        some { region_id := s.nextRegionId, offset := alignUp sizeofRegionDescriptor a } ∧
    (allocate cfg s size a).2.regions.length = s.regions.length + 1 ∧
    (allocate cfg s size a).2.regions.getLast? =
        some { region_id := s.nextRegionId,
               size := sizeofRegionDescriptor +
                 min (max (size + sizeofRegionDescriptor) (s.currentRegionSize * 2))
                   cfg.max_region_size,
               used := alignUp sizeofRegionDescriptor a + size,
               next_region_id := 0,
               shm_name := mkRegionShmName s.sessionName s.nextRegionId } ∧
    (allocate cfg s size a).2.regions.get? rs.length =
        some { r with next_region_id := s.nextRegionId } ∧
    (allocate cfg s size a).2.sequence = s.sequence + 1 := by
  rw [allocate_growth_eq cfg s size a rs r h hgrow]
  refine ⟨rfl, ?_, ?_, ?_, rfl⟩
  · simp [h]
  · exact List.getLast?_concat _
  · rw [List.get?_append (by simp)]
    rw [List.get?_concat_length]


/-- Witness for C7: a 10000-byte allocation against the fresh 4 KiB
region grows once (clamped to 8 KiB) and succeeds. -/
theorem allocate_grows_one_region_and_satisfies_witness :
    (allocate cfgA stateInitA 10000 8).1 =
        some { region_id := stateInitA.nextRegionId, offset := alignUp sizeofRegionDescriptor 8 } ∧
    (allocate cfgA stateInitA 10000 8).2.regions.length = stateInitA.regions.length + 1 ∧
    (allocate cfgA stateInitA 10000 8).2.regions.getLast? =
        some { region_id := stateInitA.nextRegionId,
               size := sizeofRegionDescriptor +
                 min (max (10000 + sizeofRegionDescriptor) (stateInitA.currentRegionSize * 2))
                   cfgA.max_region_size,
               used := alignUp sizeofRegionDescriptor 8 + 10000,
               next_region_id := 0,
               shm_name := mkRegionShmName stateInitA.sessionName stateInitA.nextRegionId } ∧
    (allocate cfgA stateInitA 10000 8).2.regions.get? 0 =
        some { regInitA with next_region_id := stateInitA.nextRegionId } ∧
    (allocate cfgA stateInitA 10000 8).2.sequence = stateInitA.sequence + 1 :=
  allocate_grows_one_region_and_satisfies cfgA stateInitA 10000 8 [] regInitA
    (by decide) (by decide)

theorem sequence_setEntry (s : PState) (ref : EntryRef) (e : ObjectEntry) :
    (setEntry s ref e).sequence = s.sequence := by
  cases ref <;> rfl

theorem sequence_mapEntry (s : PState) (ref : EntryRef) (f : ObjectEntry → ObjectEntry) :
    (mapEntry s ref f).sequence = s.sequence := by
  cases ref <;> rfl

theorem sequence_create_overflow_region (cfg : Config) (s : PState) :
    (create_overflow_region cfg s).2.sequence = s.sequence + 1 := by
  unfold create_overflow_region
  by_cases h : s.overflow.isEmpty <;> simp [h]

theorem sequence_allocate_object_entry (cfg : Config) (s : PState) :
    s.sequence ≤ (allocate_object_entry cfg s).2.sequence := by
  unfold allocate_object_entry
  by_cases h1 : s.objectCount < cfg.object_dir_capacity
  · simp [h1]
  · simp only [h1, if_false]
    cases hov : s.overflow.getLast? with
    | none =>
      simp only []
      have := sequence_create_overflow_region cfg s
      omega
    | some region =>
      by_cases h2 : region.objectCount < region.object_entry_capacity
      · simp [h2]
      · simp only [h2, if_false]
        have := sequence_create_overflow_region cfg s
        omega

/-- Claim C3 amended: `header.sequence` strictly increases on each
successful `register_object`, on `destroy_object` of a registered
pointer, on every overflow-region creation, and on every data-region
creation performed inside `allocate` when growing — but not on the first
region created by `init`, which leaves `sequence` untouched. -/
theorem sequence_increases_on_visible_changes (cfg : Config) :
    (∀ s p t l, get_location s p ≠ none →
       (register_object cfg s p t l).2.sequence > s.sequence) ∧
    (∀ s p ref, lookupPtr p s.ptrToEntry = some ref →
       (destroy_object s p).sequence > s.sequence) ∧
    (∀ s, (create_overflow_region cfg s).2.sequence > s.sequence) ∧
    (∀ s size a rs r, s.regions = rs ++ [r] → alignUp r.used a + size > r.size →
       (allocate cfg s size a).2.sequence > s.sequence) := by
  refine ⟨?_, ?_, ?_, ?_⟩
  · intro s p t l hloc
    cases hl : get_location s p with
    | none => exact absurd hl hloc
    | some loc =>
      unfold register_object
      rw [hl]
      simp only []
      have h1 := sequence_setEntry (allocate_object_entry cfg s).2
        (allocate_object_entry cfg s).1
      have h2 := sequence_allocate_object_entry cfg s
      simp only [h1]
      omega
  · intro s p ref href
    unfold destroy_object
    rw [href]
    simp only [sequence_mapEntry]
    omega
  · intro s
    rw [sequence_create_overflow_region cfg s]
    omega
  · intro s size a rs r h hgrow
    rw [allocate_growth_eq cfg s size a rs r h hgrow]
    simp

/-- Witness for the amended C3: destroying the registered pointer `ptrB`
strictly increases `sequence`. -/
theorem sequence_increases_on_visible_changes_witness :
    (destroy_object stateRegA ptrB).sequence > stateRegA.sequence :=
  (sequence_increases_on_visible_changes cfgA).2.1 stateRegA ptrB
    (EntryRef.overflow 0 0) (by decide)


/-- Claim C4 amended: an overflow region is created by an allocator only
when that allocator's *own* header pool cannot satisfy the request
(count at capacity; for an `n`-slot field run, `count + n > capacity`)
and the current overflow region's matching sub-pool (when one exists)
cannot either; the other header pools may still have free capacity at
that moment. -/
theorem overflow_created_only_when_own_pool_insufficient (cfg : Config) (s : PState) :
    ((allocate_object_entry cfg s).2.overflow.length ≠ s.overflow.length →
       cfg.object_dir_capacity ≤ s.objectCount ∧
       ∀ ov, s.overflow.getLast? = some ov → ov.object_entry_capacity ≤ ov.objectCount) ∧
    ((allocate_type_entry cfg s).2.overflow.length ≠ s.overflow.length →
       cfg.type_registry_capacity ≤ s.typeCount ∧
       ∀ ov, s.overflow.getLast? = some ov → ov.type_entry_capacity ≤ ov.typeCount) ∧
    (∀ n, (allocate_field_entries cfg s n).2.overflow.length ≠ s.overflow.length →
       cfg.field_entries_capacity < s.fieldCount + n ∧
       ∀ ov, s.overflow.getLast? = some ov → ov.field_entry_capacity < ov.fieldCount + n) := by
  refine ⟨?_, ?_, ?_⟩
  · intro hne
    by_cases h1 : s.objectCount < cfg.object_dir_capacity
    · exact absurd (by simp [allocate_object_entry, h1]) hne
    · cases hov : s.overflow.getLast? with
      | some region =>
        by_cases h2 : region.objectCount < region.object_entry_capacity
        · exact absurd (by simp [allocate_object_entry, h1, hov, h2, length_updateLast]) hne
        · refine ⟨Nat.le_of_not_lt h1, ?_⟩
          intro ov hov2
          obtain rfl : region = ov := by simpa using hov2
          exact Nat.le_of_not_lt h2
      | none =>
        refine ⟨Nat.le_of_not_lt h1, ?_⟩
        intro ov hov2
        cases hov2
  · intro hne
    by_cases h1 : s.typeCount < cfg.type_registry_capacity
    · exact absurd (by simp [allocate_type_entry, h1]) hne
    · cases hov : s.overflow.getLast? with
      | some region =>
        by_cases h2 : region.typeCount < region.type_entry_capacity
        · exact absurd (by simp [allocate_type_entry, h1, hov, h2, length_updateLast]) hne
        · refine ⟨Nat.le_of_not_lt h1, ?_⟩
          intro ov hov2
          obtain rfl : region = ov := by simpa using hov2
          exact Nat.le_of_not_lt h2
      | none =>
        refine ⟨Nat.le_of_not_lt h1, ?_⟩
        intro ov hov2
        cases hov2
  · intro n hne
    by_cases h0 : n = 0
    · exact absurd (by simp [allocate_field_entries, h0]) hne
    · by_cases h1 : s.fieldCount + n ≤ cfg.field_entries_capacity
      · exact absurd (by simp [allocate_field_entries, h0, h1]) hne
      · cases hov : s.overflow.getLast? with
        | some region =>
          by_cases h2 : region.fieldCount + n ≤ region.field_entry_capacity
          · exact absurd (by simp [allocate_field_entries, h0, h1, hov, h2, length_updateLast]) hne
          · refine ⟨Nat.lt_of_not_le h1, ?_⟩
            intro ov hov2
            obtain rfl : region = ov := by simpa using hov2
            exact Nat.lt_of_not_le h2
        | none =>
          refine ⟨Nat.lt_of_not_le h1, ?_⟩
          intro ov hov2
          cases hov2

/-- Witness for the amended C4: the 5-slot field run that spills out of
the 3-slot header field pool did not fit it, and no overflow region
existed before. -/
theorem overflow_created_only_when_own_pool_insufficient_witness :
    cfgA.field_entries_capacity < (initState cfgA).fieldCount + 5 ∧
    ∀ ov, (initState cfgA).overflow.getLast? = some ov →
      ov.field_entry_capacity < ov.fieldCount + 5 :=
  (overflow_created_only_when_own_pool_insufficient cfgA (initState cfgA)).2.2 5 (by decide)


theorem getLast?_updateLast {α : Type} (f : α → α) (l : List α) :
    (updateLast f l).getLast? = (l.getLast?).map f := by
  cases hl : l.getLast? with
  | none =>
    have : l = [] := List.getLast?_eq_none_iff.mp hl
    subst this
    rfl
  | some x =>
    obtain ⟨ys, rfl⟩ := List.getLast?_eq_some_iff.mp hl
    rw [updateLast_concat]
    simp [List.getLast?_concat]

theorem get?_last_of_updateLast {α : Type} (f : α → α) (l : List α) :
    (updateLast f l).get? (l.length - 1) = (l.getLast?).map f := by
  rw [← length_updateLast f l, ← List.getLast?_eq_get?, getLast?_updateLast]

theorem create_overflow_region_getLast (cfg : Config) (s : PState) :
    (create_overflow_region cfg s).2.overflow.getLast? =
      some { id := s.nextOverflowId, next_region_id := 0,
             object_entry_capacity :=
               (cfg.overflow_region_size - sizeofMetadataOverflowDescriptor) * 50 / 100 /
                 sizeofObjectEntry,
             type_entry_capacity :=
               (cfg.overflow_region_size - sizeofMetadataOverflowDescriptor) * 10 / 100 /
                 sizeofTypeEntry,
             field_entry_capacity :=
               (cfg.overflow_region_size - sizeofMetadataOverflowDescriptor) * 40 / 100 /
                 sizeofFieldEntry,
             objectCount := 0, typeCount := 0, fieldCount := 0,
             objects := [], shm_name := mkOverflowShmName s.sessionName s.nextOverflowId } := by
  unfold create_overflow_region
  by_cases h : s.overflow.isEmpty <;> simp [h, List.getLast?_concat]

theorem create_overflow_region_length (cfg : Config) (s : PState) :
    (create_overflow_region cfg s).2.overflow.length = s.overflow.length + 1 := by
  unfold create_overflow_region
  by_cases h : s.overflow.isEmpty <;> simp [h, length_updateLast]

theorem getEntry_setEntry (s : PState) (ref : EntryRef) (e : ObjectEntry)
    (h : (getEntry s ref).isSome = true) : getEntry (setEntry s ref e) ref = some e := by
  cases ref with
  | header i =>
    simp only [getEntry, setEntry] at h ⊢
    rw [get?_updateAt]
    cases hg : s.headerObjects.get? i with
    | none => rw [hg] at h; simp at h
    | some x => simp [hg]
  | overflow r i =>
    simp only [getEntry, setEntry] at h ⊢
    rw [get?_updateAt]
    cases hg : s.overflow.get? r with
    | none => rw [hg] at h; simp at h
    | some ov =>
      rw [hg] at h
      simp at h
      rw [if_pos rfl]
      show (updateAt (fun _ => e) i ov.objects).get? i = some e
      rw [get?_updateAt, if_pos rfl]
      cases hgo : ov.objects.get? i with
      | none =>
        rw [List.get?_eq_getElem?] at hgo
        rw [hgo] at h
        simp at h
      | some x => rfl

theorem fresh_overflow_first_slot (cfg : Config) (s : PState) :
    (match (updateLast (fun ov => { ov with objectCount := 1, objects := [uninitObjectEntry] })
        (create_overflow_region cfg s).2.overflow).get?
        ((create_overflow_region cfg s).2.overflow.length - 1) with
      | some ov => ov.objects.get? 0
      | none => none) = some uninitObjectEntry := by
  rw [get?_last_of_updateLast, create_overflow_region_getLast]
  rfl

theorem allocate_object_entry_fresh_slot (cfg : Config) (s : PState) (hwf : WFCounts s) :
    getEntry (allocate_object_entry cfg s).2 (allocate_object_entry cfg s).1 =
      some uninitObjectEntry := by
  unfold allocate_object_entry
  by_cases h1 : s.objectCount < cfg.object_dir_capacity
  · simp only [h1, if_true]
    show (s.headerObjects ++ [uninitObjectEntry]).get? s.objectCount = some uninitObjectEntry
    rw [hwf.1]
    exact List.get?_concat_length _ _
  · simp only [h1, if_false]
    cases hov : s.overflow.getLast? with
    | some region =>
      by_cases h2 : region.objectCount < region.object_entry_capacity
      · simp only [h2, if_true]
        show getEntry _ (EntryRef.overflow (s.overflow.length - 1) region.objectCount) = _
        simp only [getEntry]
        rw [get?_last_of_updateLast, hov]
        have hmem := List.mem_of_getLast?_eq_some hov
        have hcount := hwf.2 region hmem
        show (region.objects ++ [uninitObjectEntry]).get? region.objectCount =
          some uninitObjectEntry
        rw [hcount]
        exact List.get?_concat_length _ _
      · simp only [h2, if_false]
        exact fresh_overflow_first_slot cfg s
    | none =>
      exact fresh_overflow_first_slot cfg s

theorem getEntry_seq_ptr (s : PState) (u : Nat) (v : List (Ptr × EntryRef)) (ref : EntryRef) :
    getEntry { s with sequence := u, ptrToEntry := v } ref = getEntry s ref := by
  cases ref <;> rfl

theorem generation_getEntry_mapEntry (s : PState) (ref0 : EntryRef)
    (f : ObjectEntry → ObjectEntry) (hf : ∀ e, (f e).generation = e.generation)
    (ref : EntryRef) :
    (getEntry (mapEntry s ref0 f) ref).map (fun e => e.generation) =
      (getEntry s ref).map (fun e => e.generation) := by
  cases ref0 with
  | header i0 =>
    cases ref with
    | header i =>
      simp only [getEntry, mapEntry]
      rw [get?_updateAt]
      by_cases hij : i0 = i
      · simp only [if_pos hij]
        cases hg : s.headerObjects.get? i <;> simp [hf]
      · simp [if_neg hij]
    | overflow r i => rfl
  | overflow r0 i0 =>
    cases ref with
    | header i => rfl
    | overflow r i =>
      simp only [getEntry, mapEntry]
      rw [get?_updateAt]
      by_cases hr : r0 = r
      · simp only [if_pos hr]
        cases hg : s.overflow.get? r with
        | none => simp
        | some ov =>
          show ((updateAt f i0 ov.objects).get? i).map (fun e => e.generation) =
            (ov.objects.get? i).map (fun e => e.generation)
          rw [get?_updateAt]
          by_cases hij : i0 = i
          · simp only [if_pos hij]
            cases hgo : ov.objects.get? i <;> simp [hf]
          · simp [if_neg hij]
      · simp [if_neg hr]

/-- Claim C8 amended: `generation` equals 1 in the entry a successful
`register_object` creates (with `state = Alive`), and `destroy_object`
leaves the generation of every entry unchanged — it is never
incremented. -/
theorem generation_starts_at_one_and_destroy_preserves_it (cfg : Config) :
    (∀ s p t l, WFCounts s → ∀ ref, (register_object cfg s p t l).1 = some ref →
       (getEntry (register_object cfg s p t l).2 ref).map (fun e => e.generation) = some 1 ∧
       (getEntry (register_object cfg s p t l).2 ref).map (fun e => e.state) =
         some stateAlive) ∧
    (∀ s p ref, (getEntry (destroy_object s p) ref).map (fun e => e.generation) =
       (getEntry s ref).map (fun e => e.generation)) := by
  constructor
  · intro s p t l hwf ref href
    cases hloc : get_location s p with
    | none => rw [register_object, hloc] at href; cases href
    | some loc =>
      rw [register_object, hloc] at href ⊢
      simp only [Option.some.injEq] at href
      subst href
      simp only []
      rw [getEntry_seq_ptr]
      rw [getEntry_setEntry]
      · constructor <;> rfl
      · rw [allocate_object_entry_fresh_slot cfg s hwf]
        rfl
  · intro s p ref
    cases hl : lookupPtr p s.ptrToEntry with
    | none => rw [destroy_object, hl]
    | some ref0 =>
      rw [destroy_object, hl]
      simp only []
      rw [getEntry_seq_ptr]
      exact generation_getEntry_mapEntry s ref0
        (fun e => { e with state := stateDestroyed }) (fun e => rfl) ref

/-- Witness for the amended C8: registering `ptrA` in the fresh session
creates header entry 0 with generation 1 and state Alive. -/
theorem generation_starts_at_one_and_destroy_preserves_it_witness :
    (getEntry (register_object cfgA stateInitA ptrA 7 lblA).2 (EntryRef.header 0)).map
        (fun e => e.generation) = some 1 ∧
    (getEntry (register_object cfgA stateInitA ptrA 7 lblA).2 (EntryRef.header 0)).map
        (fun e => e.state) = some stateAlive :=
  (generation_starts_at_one_and_destroy_preserves_it cfgA).1 stateInitA ptrA 7 lblA
    (by decide) (EntryRef.header 0) (by decide)


theorem range'_one_concat (n : Nat) : List.range' 1 n ++ [n + 1] = List.range' 1 (n + 1) := by
  rw [List.range'_concat]
  simp [Nat.add_comm]

theorem create_region_effects (s : PState) (sz : Nat) :
    (create_region s sz).2.regions.map (fun r => r.region_id) =
      s.regions.map (fun r => r.region_id) ++ [s.nextRegionId] ∧
    (create_region s sz).2.regions.length = s.regions.length + 1 ∧
    (create_region s sz).2.nextRegionId = s.nextRegionId + 1 ∧
    (create_region s sz).2.overflow = s.overflow ∧
    (create_region s sz).2.nextOverflowId = s.nextOverflowId := by
  unfold create_region
  refine ⟨?_, ?_, rfl, rfl, rfl⟩
  · simp only [List.map_append, List.map_cons, List.map_nil]
    rw [map_updateLast (fun r : RegionDescriptor => { r with next_region_id := s.nextRegionId })
      (fun r => r.region_id) (fun x => rfl)]
  · simp [length_updateLast]

theorem idsInv_create_region (s : PState) (sz : Nat) (h : IdsInv s) :
    IdsInv (create_region s sz).2 := by
  obtain ⟨hm, hl, hn, ho, hno⟩ := create_region_effects s sz
  refine ⟨?_, ?_, ?_, ?_⟩
  · rw [hm, hl, h.1, h.2.1]
    exact range'_one_concat _
  · rw [hn, hl, h.2.1]
  · rw [ho]
    exact h.2.2.1
  · rw [hno, ho]
    exact h.2.2.2

theorem create_overflow_region_effects (cfg : Config) (s : PState) :
    (create_overflow_region cfg s).2.overflow.map (fun ov => ov.id) =
      s.overflow.map (fun ov => ov.id) ++ [s.nextOverflowId] ∧
    (create_overflow_region cfg s).2.overflow.length = s.overflow.length + 1 ∧
    (create_overflow_region cfg s).2.nextOverflowId = s.nextOverflowId + 1 ∧
    (create_overflow_region cfg s).2.regions = s.regions ∧
    (create_overflow_region cfg s).2.nextRegionId = s.nextRegionId := by
  unfold create_overflow_region
  by_cases h : s.overflow.isEmpty
  · refine ⟨?_, ?_, ?_, ?_, ?_⟩ <;> simp [h, length_updateLast]
  · refine ⟨?_, ?_, ?_, ?_, ?_⟩ <;> simp [h, length_updateLast]
    rw [map_updateLast (fun ov : OverflowRegion => { ov with next_region_id := s.nextOverflowId })
      (fun ov => ov.id) (fun x => rfl)]

theorem idsInv_create_overflow (cfg : Config) (s : PState) (h : IdsInv s) :
    IdsInv (create_overflow_region cfg s).2 := by
  obtain ⟨hm, hl, hn, hr, hnr⟩ := create_overflow_region_effects cfg s
  refine ⟨?_, ?_, ?_, ?_⟩
  · rw [hr]
    exact h.1
  · rw [hnr, hr]
    exact h.2.1
  · rw [hm, hl, h.2.2.1, h.2.2.2]
    exact range'_one_concat _
  · rw [hn, hl, h.2.2.2]

theorem idsInv_regions_updateLast (x : PState) (f : RegionDescriptor → RegionDescriptor)
    (hf : ∀ r, (f r).region_id = r.region_id) (h : IdsInv x) :
    IdsInv { x with regions := updateLast f x.regions } := by
  refine ⟨?_, ?_, h.2.2.1, h.2.2.2⟩
  · show (updateLast f x.regions).map _ = List.range' 1 (updateLast f x.regions).length
    rw [map_updateLast f _ hf, length_updateLast]
    exact h.1
  · show x.nextRegionId = (updateLast f x.regions).length + 1
    rw [length_updateLast]
    exact h.2.1

theorem idsInv_overflow_updateLast (x : PState) (f : OverflowRegion → OverflowRegion)
    (hf : ∀ ov, (f ov).id = ov.id) (h : IdsInv x) :
    IdsInv { x with overflow := updateLast f x.overflow } := by
  refine ⟨h.1, h.2.1, ?_, ?_⟩
  · show (updateLast f x.overflow).map _ = List.range' 1 (updateLast f x.overflow).length
    rw [map_updateLast f _ hf, length_updateLast]
    exact h.2.2.1
  · show x.nextOverflowId = (updateLast f x.overflow).length + 1
    rw [length_updateLast]
    exact h.2.2.2

theorem idsInv_overflow_updateAt (x : PState) (f : OverflowRegion → OverflowRegion)
    (hf : ∀ ov, (f ov).id = ov.id) (i : Nat) (h : IdsInv x) :
    IdsInv { x with overflow := updateAt f i x.overflow } := by
  refine ⟨h.1, h.2.1, ?_, ?_⟩
  · show (updateAt f i x.overflow).map _ = List.range' 1 (updateAt f i x.overflow).length
    rw [map_updateAt f _ hf, length_updateAt]
    exact h.2.2.1
  · show x.nextOverflowId = (updateAt f i x.overflow).length + 1
    rw [length_updateAt]
    exact h.2.2.2

theorem idsInv_congr (x y : PState)
    (h1 : y.regions.map (fun r => r.region_id) = x.regions.map (fun r => r.region_id))
    (h2 : y.regions.length = x.regions.length)
    (h3 : y.nextRegionId = x.nextRegionId)
    (h4 : y.overflow.map (fun ov => ov.id) = x.overflow.map (fun ov => ov.id))
    (h5 : y.overflow.length = x.overflow.length)
    (h6 : y.nextOverflowId = x.nextOverflowId)
    (h : IdsInv x) : IdsInv y := by
  unfold IdsInv at h ⊢
  rw [h1, h2, h3, h4, h5, h6]
  exact h

theorem allocate_nogrow_eq (cfg : Config) (s : PState) (size a : Nat)
    (region : RegionDescriptor) (hl : s.regions.getLast? = some region)
    (hc : ¬ alignUp region.used a + size > region.size) :
    allocate cfg s size a =
      (some { region_id := region.region_id, offset := alignUp region.used a },
       { s with regions :=
          updateLast (fun q => { q with used := alignUp region.used a + size }) s.regions }) := by
  unfold allocate
  rw [hl]
  simp only [gt_iff_lt] at hc ⊢
  rw [if_neg hc]

theorem idsInv_allocate (cfg : Config) (s : PState) (size a : Nat) (h : IdsInv s) :
    IdsInv (allocate cfg s size a).2 := by
  cases hl : s.regions.getLast? with
  | none =>
    unfold allocate
    rw [hl]
    exact h
  | some r =>
    obtain ⟨rs, hrs⟩ := List.getLast?_eq_some_iff.mp hl
    by_cases hc : alignUp r.used a + size > r.size
    · rw [allocate_growth_eq cfg s size a rs r hrs hc]
      have h1 := h.1
      have h2 := h.2.1
      rw [hrs] at h1 h2
      simp only [List.map_append, List.map_cons, List.map_nil, List.length_append,
        List.length_cons, List.length_nil] at h1 h2
      refine ⟨?_, ?_, h.2.2.1, h.2.2.2⟩
      · simp only [List.map_append, List.map_cons, List.map_nil, List.length_append,
          List.length_cons, List.length_nil]
        rw [h1, h2]
        simpa using range'_one_concat (rs.length + 1)
      · simp only [List.length_append, List.length_cons, List.length_nil]
        omega
    · rw [allocate_nogrow_eq cfg s size a r hl hc]
      refine idsInv_congr s _ ?_ ?_ rfl rfl rfl rfl h
      · exact map_updateLast (fun q : RegionDescriptor => { q with used := alignUp r.used a + size })
          (fun q => q.region_id) (fun q => rfl) s.regions
      · exact length_updateLast (fun q : RegionDescriptor => { q with used := alignUp r.used a + size })
          s.regions

theorem idsInv_allocate_object_entry (cfg : Config) (s : PState) (h : IdsInv s) :
    IdsInv (allocate_object_entry cfg s).2 := by
  unfold allocate_object_entry
  split
  · exact h
  · split
    · split
      · exact idsInv_overflow_updateLast _ _ (fun ov => rfl) h
      · exact idsInv_overflow_updateLast _ _ (fun ov => rfl) (idsInv_create_overflow _ _ h)
    · exact idsInv_overflow_updateLast _ _ (fun ov => rfl) (idsInv_create_overflow _ _ h)

theorem idsInv_allocate_type_entry (cfg : Config) (s : PState) (h : IdsInv s) :
    IdsInv (allocate_type_entry cfg s).2 := by
  unfold allocate_type_entry
  split
  · exact h
  · split
    · split
      · exact idsInv_overflow_updateLast _ _ (fun ov => rfl) h
      · exact idsInv_overflow_updateLast _ _ (fun ov => rfl) (idsInv_create_overflow _ _ h)
    · exact idsInv_overflow_updateLast _ _ (fun ov => rfl) (idsInv_create_overflow _ _ h)

theorem idsInv_allocate_field_entries (cfg : Config) (s : PState) (n : Nat) (h : IdsInv s) :
    IdsInv (allocate_field_entries cfg s n).2 := by
  unfold allocate_field_entries
  split
  · exact h
  · split
    · exact h
    · split
      · split
        · exact idsInv_overflow_updateLast _ _ (fun ov => rfl) h
        · split
          · exact idsInv_create_overflow _ _ h
          · exact idsInv_overflow_updateLast _ _ (fun ov => rfl) (idsInv_create_overflow _ _ h)
      · split
        · exact idsInv_create_overflow _ _ h
        · exact idsInv_overflow_updateLast _ _ (fun ov => rfl) (idsInv_create_overflow _ _ h)

theorem idsInv_setEntry (x : PState) (ref : EntryRef) (e : ObjectEntry) (h : IdsInv x) :
    IdsInv (setEntry x ref e) := by
  cases ref with
  | header i => exact h
  | overflow r i =>
    exact idsInv_overflow_updateAt x
      (fun ov => { ov with objects := updateAt (fun _ => e) i ov.objects })
      (fun ov => rfl) r h

theorem idsInv_mapEntry (x : PState) (ref : EntryRef) (f : ObjectEntry → ObjectEntry)
    (h : IdsInv x) : IdsInv (mapEntry x ref f) := by
  cases ref with
  | header i => exact h
  | overflow r i =>
    exact idsInv_overflow_updateAt x
      (fun ov => { ov with objects := updateAt f i ov.objects })
      (fun ov => rfl) r h

theorem idsInv_register_object (cfg : Config) (s : PState) (p : Ptr) (t : Nat) (l : String)
    (h : IdsInv s) : IdsInv (register_object cfg s p t l).2 := by
  unfold register_object
  split
  · exact h
  · exact idsInv_setEntry _ _ _ (idsInv_allocate_object_entry cfg s h)

theorem idsInv_destroy_object (s : PState) (p : Ptr) (h : IdsInv s) :
    IdsInv (destroy_object s p) := by
  unfold destroy_object
  split
  · exact h
  · exact idsInv_mapEntry _ _ _ h

theorem idsInv_step (cfg : Config) (s : PState) (c : Cmd) (h : IdsInv s) :
    IdsInv (step cfg s c) := by
  cases c with
  | sessionInit name sz => exact idsInv_create_region _ _ h
  | alloc sz a => exact idsInv_allocate cfg s sz a h
  | registerObj p t l => exact idsInv_register_object cfg s p t l h
  | destroyObj p => exact idsInv_destroy_object s p h
  | allocObjEntry => exact idsInv_allocate_object_entry cfg s h
  | allocTypeEntry => exact idsInv_allocate_type_entry cfg s h
  | allocFieldEntries n => exact idsInv_allocate_field_entries cfg s n h

theorem idsInv_run (cfg : Config) (cmds : List Cmd) (s : PState) (h : IdsInv s) :
    IdsInv (run cfg cmds s) := by
  induction cmds generalizing s with
  | nil => exact h
  | cons c rest ih => exact ih (step cfg s c) (idsInv_step cfg s c h)

/-- Claim C9 amended: within each kind the ids are unique and assigned in
creation order starting at 1 — after any session, the data-region ids in
creation order are exactly `1, 2, …`, and independently so are the
overflow-region ids (so a data region and an overflow region may share
an id, as the counterexample shows). -/
theorem region_ids_sequential_within_each_kind (cfg : Config) (cmds : List Cmd) :
    (run cfg cmds (initState cfg)).regions.map (fun r => r.region_id) =
      List.range' 1 (run cfg cmds (initState cfg)).regions.length ∧
    (run cfg cmds (initState cfg)).overflow.map (fun ov => ov.id) =
      List.range' 1 (run cfg cmds (initState cfg)).overflow.length := by
  have h : IdsInv (run cfg cmds (initState cfg)) :=
    idsInv_run cfg cmds (initState cfg) ⟨rfl, rfl, rfl, rfl⟩
  exact ⟨h.1, h.2.2.1⟩

end Memglass
